import Mathlib

/-!
Verification development for the sylar coroutine runtime
(fiber scheduler + epoll IO manager + timer manager).

The definitions below are a shallow embedding of the C++ sources:
`iomanager.cpp` / `iomanager.h` (IOManager, FdContext, event contexts),
`Schedule.h` (Scheduler run queue), `fiber.cpp` / `fiber.h` (fiber
construction, thread-local current fiber), and `timer.cpp` / `timer.h`
(Timer, TimerManager).  Machine integers are modelled as `Nat` with
explicit reduction modulo `2 ^ 64` where unsigned wraparound matters.
Callbacks, fibers and schedulers are identified by opaque numeric
tokens; calls to `epoll_ctl` are recorded in a log together with a
boolean oracle for their success, and `SYLAR_ASSERT` failures (which
abort the process) are modelled by `Option.none` results.
-/

namespace Sylar

/-! ## Event bit masks (iomanager.h, enum Event; sys/epoll.h constants) -/

/-- `IOManager::NONE = 0x0`. -/
def NONE : Nat := 0

/-- `IOManager::READ = 0x1`. -/
def READ : Nat := 1

/-- `IOManager::WRITE = 0x4`. -/
def WRITE : Nat := 4

/-- `EPOLLIN = 0x1`. -/
def EPOLLIN : Nat := 1

/-- `EPOLLOUT = 0x4`. -/
def EPOLLOUT : Nat := 4

/-- `EPOLLERR = 0x8`. -/
def EPOLLERR : Nat := 8

/-- `EPOLLHUP = 0x10`. -/
def EPOLLHUP : Nat := 16

/-- `EPOLLET = 1u << 31`. -/
def EPOLLET : Nat := 2147483648

/-- The modulus of 64-bit unsigned arithmetic. -/
def U64MOD : Nat := 18446744073709551616

/-- `~0ull`, the saturated sentinel returned by `getNextTimer` when the
timer set is empty. -/
def U64MAX : Nat := U64MOD - 1

/-- `x & ~y` on machine words: for `x` below the word modulus the bits of
`x &&& y` form a subset of the bits of `x`, so the subtraction has no
borrows and clears exactly the bits of `y` from `x`. -/
def maskDiff (x y : Nat) : Nat := x - (x &&& y)

/-- `a - b` in `uint64_t` arithmetic (wraparound modulo `2 ^ 64`);
models the expression `m_previouseTime - 60 * 60 * 1000` in
`TimerManager::detectClockRollover`. -/
def u64sub (a b : Nat) : Nat := (a % U64MOD + (U64MOD - b % U64MOD)) % U64MOD

/-! ## Scheduler run queue (Schedule.h) -/

/-- `Scheduler::FiberAndThread`: a run-queue entry holding either a fiber
reference or a callback, plus a thread affinity (`-1` = any thread).
Fibers and callbacks are opaque tokens; an absent smart pointer /
empty `std::function` is `none`. -/
structure FiberAndThread where
  fiber : Option Nat
  cb : Option Nat
  thread : Int
deriving DecidableEq, Repr

/-- The argument of the `schedule` template: either a `Fiber::ptr`
(possibly null) or a `std::function<void()>` (possibly empty). -/
inductive FiberOrCb where
  | fiberV (f : Option Nat)
  | cbV (c : Option Nat)
deriving DecidableEq, Repr

/-- The `FiberAndThread` constructors selected by the `schedule`
template for each kind of entry (Schedule.h lines 117-129). -/
def mkFiberAndThread : FiberOrCb → Int → FiberAndThread
  | .fiberV f, t => { fiber := f, cb := none, thread := t }
  | .cbV c, t => { fiber := none, cb := c, thread := t }

/-- `Scheduler::scheduleNoLock(fc, thread)`: records whether the queue
was empty, appends the entry when it actually carries a fiber or a
callback, and reports whether a tickle is needed. -/
def scheduleNoLock (q : List FiberAndThread) (ft : FiberAndThread) :
    List FiberAndThread × Bool :=
  let need_tickle := q.isEmpty
  (if ft.fiber.isSome || ft.cb.isSome then q ++ [ft] else q, need_tickle)

/-- `Scheduler::schedule(fc, thread)`: runs `scheduleNoLock` under the
queue lock and invokes `tickle()` after unlock iff it returned true.
The boolean component records whether `tickle()` was invoked. -/
def Scheduler.schedule (q : List FiberAndThread) (fc : FiberOrCb) (thread : Int) :
    List FiberAndThread × Bool :=
  scheduleNoLock q (mkFiberAndThread fc thread)

/-! ## FdContext and event contexts (iomanager.h / iomanager.cpp) -/

/-- `IOManager::FdContext::EventContext`: the scheduler the waiter
belongs to, and either a fiber or a callback. -/
structure EventContext where
  scheduler : Option Nat
  fiber : Option Nat
  cb : Option Nat
deriving DecidableEq, Repr

/-- An event context with all three fields empty, the result of
`FdContext::resetContext`. -/
def EventContext.resetCtx : EventContext :=
  { scheduler := none, fiber := none, cb := none }

/-- The spec's notion of a cleared context:
`scheduler = ∅, fiber = ∅, cb = ∅`. -/
def EventContext.cleared (c : EventContext) : Bool :=
  c.scheduler.isNone && c.fiber.isNone && c.cb.isNone

/-- `IOManager::FdContext`: per-fd read/write event contexts, the fd
itself and the registered-events bitmask. -/
structure FdContext where
  read : EventContext
  write : EventContext
  fd : Nat
  events : Nat
deriving DecidableEq, Repr

/-- A freshly constructed `FdContext` (all members default-initialised;
note the source never assigns the `fd` member, so it stays 0). -/
def FdContext.init : FdContext :=
  { read := .resetCtx, write := .resetCtx, fd := 0, events := NONE }

instance : Inhabited FdContext := ⟨FdContext.init⟩

/-- `FdContext::getContext(event)`: `read` for `READ`, `write` for
`WRITE` (any other argument asserts). -/
def FdContext.getContext (c : FdContext) (e : Nat) : EventContext :=
  if e = READ then c.read else c.write

/-- Writing back through the reference returned by `getContext`. -/
def FdContext.setContext (c : FdContext) (e : Nat) (ctx : EventContext) : FdContext :=
  if e = READ then { c with read := ctx } else { c with write := ctx }

/-- `FdContext::triggerEvent(event)` (iomanager.cpp lines 86-100),
embedded exactly as written: asserts the event is registered, removes
its bit from `events`, then schedules the waiter and nulls the
`scheduler` field.  Two source details are kept faithfully:
a callback waiter is scheduled through `schedule(&ctx.cb)`, whose
pointer constructor swaps the callback out of the slot, while a fiber
waiter is scheduled through `schedule(ctx.fiber)`, which copies the
shared pointer by value and leaves `ctx.fiber` set.  A failed
assertion or a null `scheduler` pointer yields `none`. -/
def FdContext.triggerEvent (c : FdContext) (e : Nat) (q : List FiberAndThread) :
    Option (FdContext × List FiberAndThread) :=
  if c.events &&& e = 0 then none
  else
    let events2 := maskDiff c.events e
    let ctx := c.getContext e
    match ctx.scheduler with
    | none => none
    | some _ =>
      match ctx.cb with
      | some cbv =>
        let q2 := (scheduleNoLock q { fiber := none, cb := some cbv, thread := -1 }).1
        let ctx2 : EventContext := { scheduler := none, fiber := ctx.fiber, cb := none }
        some ({ c.setContext e ctx2 with events := events2 }, q2)
      | none =>
        let q2 := (scheduleNoLock q { fiber := ctx.fiber, cb := none, thread := -1 }).1
        let ctx2 : EventContext := { scheduler := none, fiber := ctx.fiber, cb := ctx.cb }
        some ({ c.setContext e ctx2 with events := events2 }, q2)

/-! ## IOManager state and operations (iomanager.cpp) -/

/-- The `epoll_ctl` operation chosen by an IOManager operation. -/
inductive EpollOp where
  | add
  | mod
  | del
deriving DecidableEq, Repr

/-- A record of one `epoll_ctl(m_epfd, op, fd, &epevent)` call:
the operation, the fd argument and the `epevent.events` mask. -/
structure EpollCtl where
  op : EpollOp
  fd : Nat
  mask : Nat
deriving DecidableEq, Repr

/-- The IOManager state visible to the registration operations:
the fd-context vector `m_fdContexts`, the atomic
`m_pendingEventCount`, the scheduler's run queue (target of
`schedule` calls made by `triggerEvent`), and the log of `epoll_ctl`
calls issued. -/
structure IOMState where
  fdContexts : List FdContext
  pendingEventCount : Nat
  queue : List FiberAndThread
  epollLog : List EpollCtl
deriving DecidableEq, Repr

/-- The registered-events mask of descriptor `fd` (0 for an absent
slot, matching a default-constructed context). -/
def IOMState.fdEvents (s : IOMState) (fd : Nat) : Nat :=
  ((s.fdContexts.get? fd).getD default).events

/-- The `(fd, e)` event context (a freshly reset context for an absent
slot, matching a default-constructed `FdContext`). -/
def IOMState.fdCtxAt (s : IOMState) (fd : Nat) (e : Nat) : EventContext :=
  ((s.fdContexts.get? fd).getD default).getContext e

/-- Replace the context stored for descriptor `fd`. -/
def IOMState.setFd (s : IOMState) (fd : Nat) (c : FdContext) : IOMState :=
  { s with fdContexts := s.fdContexts.set fd c }

/-- `IOManager::contextResize(size)`: the vector is resized and every
null slot is filled with a fresh `FdContext` (note the source never
assigns the new contexts' `fd` member). -/
def contextResize (l : List FdContext) (size : Nat) : List FdContext :=
  if size ≤ l.length then l.take size
  else l ++ List.replicate (size - l.length) FdContext.init

/-- The fd-context vector used by `addEvent`: the existing vector when
the fd is in range, otherwise the vector grown by
`contextResize(fd * 1.5)` (iomanager.cpp lines 161-171). -/
def addEventContexts (s : IOMState) (fd : Nat) : List FdContext :=
  if fd < s.fdContexts.length then s.fdContexts
  else contextResize s.fdContexts (3 * fd / 2)

/-- `IOManager::addEvent(fd, event, cb)` (iomanager.cpp lines 159-221).
Arguments beyond the source signature model the call's environment:
`sched` is `Scheduler::GetThis()`, `curFiber` is `Fiber::GetThis()`
with `curFiberExec` recording whether its state is `EXEC`, and
`epollOk` is the success of the `epoll_ctl` call.  Returns the `int`
result and the new state, or `none` when a `SYLAR_ASSERT` aborts
(event already registered, or a dirty slot) or the vector index is
out of range after the resize. -/
def addEvent (s : IOMState) (fd : Nat) (event : Nat) (cb : Option Nat)
    (sched : Option Nat) (curFiber : Nat) (curFiberExec : Bool) (epollOk : Bool) :
    Option (Int × IOMState) :=
  let contexts := addEventContexts s fd
  match contexts.get? fd with
  | none => none
  | some fd_ctx =>
    if fd_ctx.events &&& event ≠ 0 then none
    else
      let op := if fd_ctx.events ≠ 0 then EpollOp.mod else EpollOp.add
      let mask := EPOLLET ||| fd_ctx.events ||| event
      let log := s.epollLog ++ [{ op := op, fd := fd, mask := mask }]
      if ¬epollOk then
        some (-1, { s with fdContexts := contexts, epollLog := log })
      else
        let events2 := fd_ctx.events ||| event
        let ctx := fd_ctx.getContext event
        if ¬(ctx.scheduler.isNone && ctx.fiber.isNone && ctx.cb.isNone) then none
        else
          match cb with
          | some cbv =>
            let ctx2 : EventContext := { scheduler := sched, fiber := none, cb := some cbv }
            let fd_ctx2 := { fd_ctx.setContext event ctx2 with events := events2 }
            some (0, { s with
              fdContexts := contexts.set fd fd_ctx2,
              pendingEventCount := s.pendingEventCount + 1,
              epollLog := log })
          | none =>
            if ¬curFiberExec then none
            else
              let ctx2 : EventContext := { scheduler := sched, fiber := some curFiber, cb := none }
              let fd_ctx2 := { fd_ctx.setContext event ctx2 with events := events2 }
              some (0, { s with
                fdContexts := contexts.set fd fd_ctx2,
                pendingEventCount := s.pendingEventCount + 1,
                epollLog := log })

/-- `IOManager::delEvent(fd, event)` (iomanager.cpp lines 223-257):
re-programs epoll with the residual mask, decrements the pending
count, stores the residual mask and resets the event context.
(The source spells the local epoll event variable `epevnt` on line
240; it is the `epevent` used by the call.) -/
def delEvent (s : IOMState) (fd : Nat) (event : Nat) (epollOk : Bool) :
    Bool × IOMState :=
  match s.fdContexts.get? fd with
  | none => (false, s)
  | some fd_ctx =>
    if fd_ctx.events &&& event = 0 then (false, s)
    else
      let new_events := maskDiff fd_ctx.events event
      let op := if new_events ≠ 0 then EpollOp.mod else EpollOp.del
      let mask := EPOLLET ||| new_events
      let log := s.epollLog ++ [{ op := op, fd := fd, mask := mask }]
      if ¬epollOk then (false, { s with epollLog := log })
      else
        let fd_ctx2 :=
          { fd_ctx.setContext event .resetCtx with events := new_events }
        (true, { s.setFd fd fd_ctx2 with
          pendingEventCount := s.pendingEventCount - 1,
          epollLog := log })

/-- `IOManager::cancelEvent(fd, event)` (iomanager.cpp lines 259-292),
embedded exactly as written: after the successful `epoll_ctl` call it
resets the event context and decrements the pending count — it never
calls `triggerEvent`, and the computed `new_events` mask is never
stored back into `fd_ctx->events`. -/
def cancelEvent (s : IOMState) (fd : Nat) (event : Nat) (epollOk : Bool) :
    Bool × IOMState :=
  match s.fdContexts.get? fd with
  | none => (false, s)
  | some fd_ctx =>
    if fd_ctx.events &&& event = 0 then (false, s)
    else
      let new_events := maskDiff fd_ctx.events event
      let op := if new_events ≠ 0 then EpollOp.mod else EpollOp.del
      let mask := EPOLLET ||| new_events
      let log := s.epollLog ++ [{ op := op, fd := fd, mask := mask }]
      if ¬epollOk then (false, { s with epollLog := log })
      else
        let fd_ctx2 := fd_ctx.setContext event .resetCtx
        (true, { s.setFd fd fd_ctx2 with
          pendingEventCount := s.pendingEventCount - 1,
          epollLog := log })

/-- `IOManager::cancelAll(fd)` (iomanager.cpp lines 294-338), embedded
exactly as written: after the `EPOLL_CTL_DEL` it resets the read and
write contexts of every registered event and decrements the pending
count per event, never calling `triggerEvent` and never clearing
`fd_ctx->events`; it then executes `SYLAR_ASSERT(fd_ctx->events == 0)`,
modelled by `none` (process abort) when the mask is non-zero. -/
def cancelAll (s : IOMState) (fd : Nat) (epollOk : Bool) :
    Option (Bool × IOMState) :=
  match s.fdContexts.get? fd with
  | none => some (false, s)
  | some fd_ctx =>
    if fd_ctx.events = 0 then some (false, s)
    else
      let log := s.epollLog ++ [{ op := EpollOp.del, fd := fd, mask := 0 }]
      if ¬epollOk then some (false, { s with epollLog := log })
      else
        let c1 :=
          if fd_ctx.events &&& READ ≠ 0 then { fd_ctx with read := .resetCtx } else fd_ctx
        let p1 :=
          if fd_ctx.events &&& READ ≠ 0 then s.pendingEventCount - 1 else s.pendingEventCount
        let c2 :=
          if c1.events &&& WRITE ≠ 0 then { c1 with write := .resetCtx } else c1
        let p2 := if c1.events &&& WRITE ≠ 0 then p1 - 1 else p1
        if c2.events ≠ 0 then none
        else
          some (true, { s.setFd fd c2 with pendingEventCount := p2, epollLog := log })

/-- Processing of one ready epoll event inside `IOManager::idle`
(iomanager.cpp lines 433-499), for an event whose `data.ptr` is the
context stored at index `fd` (the tickle-pipe branch is not taken).
`epEvents` is `event.events` as returned by `epoll_wait`, `epollOk`
the success of the re-arming `epoll_ctl`.  Two source details are
embedded by intent: line 492 reads `fd_ctx->triggerEvent(read)` where
`read` is the libc function rather than the `READ` constant (the
enum value is the only well-formed reading), and the re-arming
`epoll_ctl` passes `fd_ctx->fd` (which no code ever assigns). -/
def idleProcessEvent (s : IOMState) (fd : Nat) (epEvents : Nat) (epollOk : Bool) :
    Option IOMState :=
  match s.fdContexts.get? fd with
  | none => none
  | some fd_ctx =>
    let ep2 :=
      if epEvents &&& (EPOLLERR ||| EPOLLHUP) ≠ 0 then
        epEvents ||| ((EPOLLIN ||| EPOLLOUT) &&& fd_ctx.events)
      else epEvents
    let real_events :=
      (if ep2 &&& EPOLLIN ≠ 0 then READ else NONE) |||
      (if ep2 &&& EPOLLOUT ≠ 0 then WRITE else NONE)
    if fd_ctx.events &&& real_events = NONE then some s
    else
      let left_events := maskDiff fd_ctx.events real_events
      let op := if left_events ≠ 0 then EpollOp.mod else EpollOp.del
      let mask := EPOLLET ||| left_events
      let log := s.epollLog ++ [{ op := op, fd := fd_ctx.fd, mask := mask }]
      if ¬epollOk then some { s with epollLog := log }
      else
        let step1 : Option (FdContext × List FiberAndThread × Nat) :=
          if real_events &&& READ ≠ 0 then
            match fd_ctx.triggerEvent READ s.queue with
            | none => none
            | some (c, q) => some (c, q, s.pendingEventCount - 1)
          else some (fd_ctx, s.queue, s.pendingEventCount)
        match step1 with
        | none => none
        | some (c1, q1, p1) =>
          let step2 : Option (FdContext × List FiberAndThread × Nat) :=
            if real_events &&& WRITE ≠ 0 then
              match c1.triggerEvent WRITE q1 with
              | none => none
              | some (c, q) => some (c, q, p1 - 1)
            else some (c1, q1, p1)
          match step2 with
          | none => none
          | some (c2, q2, p2) =>
            some { s.setFd fd c2 with
              pendingEventCount := p2, queue := q2, epollLog := log }

/-! ## Fiber identity and the thread-local main fiber (fiber.cpp) -/

/-- The process-wide fiber counters declared at fiber.cpp lines 30-32:
`s_fiber_id` (never read or written by any constructor) and the live
fiber count `s_fiber_count`. -/
structure FiberGlobals where
  s_fiber_id : Nat
  s_fiber_count : Nat
deriving DecidableEq, Repr

/-- The task-fiber constructor
`Fiber::Fiber(cb, stacksize, use_caller)` (fiber.cpp lines 81-110) as
it affects identity: the member initialiser is `m_id(++s_fiber_count)`
— a pre-increment of the live-count, not of `s_fiber_id` — and the
body increments `s_fiber_count` once more.  Returns the new fiber's
id and the updated globals. -/
def fiberCtor (g : FiberGlobals) : Nat × FiberGlobals :=
  let c1 := g.s_fiber_count + 1
  (c1, { g with s_fiber_count := c1 + 1 })

/-- `Fiber::~Fiber` (fiber.cpp line 113): `--s_fiber_count`. -/
def fiberDtor (g : FiberGlobals) : FiberGlobals :=
  { g with s_fiber_count := g.s_fiber_count - 1 }

/-- The fiber-related thread-local storage (fiber.cpp lines 34-37):
the raw current-fiber pointer `t_fiber` and the smart-pointer handle
`t_threadFiber` meant to own the thread's main fiber. -/
structure ThreadTLS where
  t_fiber : Option Nat
  t_threadFiber : Option Nat
deriving DecidableEq, Repr

/-- `Fiber::GetThis()` (fiber.cpp lines 190-202), embedded exactly as
written.  When no current fiber exists, the private main-fiber
constructor runs (`SetThis(this)` stores the raw pointer, modelled by
the token `mainTok`); the next statement of the source is
`t_threadFiber == main_fiber;` — an equality comparison whose result
is discarded, not an assignment — so `t_threadFiber` is left exactly
as it was.  Returns the current fiber and the updated TLS. -/
def fiberGetThis (tls : ThreadTLS) (mainTok : Nat) : Nat × ThreadTLS :=
  match tls.t_fiber with
  | some f => (f, tls)
  | none =>
    (mainTok, { t_fiber := some mainTok, t_threadFiber := tls.t_threadFiber })

/-! ## TimerManager (timer.cpp / timer.h) -/

/-- A `Timer` as stored in `TimerManager::m_timers`: recurring flag,
period `m_ms`, absolute expiry `m_next`, callback token `m_cb`
(`none` once cleared), and the object identity `oid` used as the
comparator's pointer tie-break. -/
structure TimerRec where
  m_recurring : Bool
  m_ms : Nat
  m_next : Nat
  m_cb : Option Nat
  oid : Nat
deriving DecidableEq, Repr

/-- `Timer::Comparator` (timer.cpp lines 45-55) on non-null timers:
by `m_next`, ties broken by object identity. -/
def timerLtb (a b : TimerRec) : Bool :=
  a.m_next < b.m_next || (a.m_next = b.m_next && a.oid < b.oid)

/-- Insertion into the ordered set `m_timers`, kept as a sorted list:
the new timer is placed before the first strictly greater element
(identities are unique, so equality cannot occur). -/
def insertTimer (t : TimerRec) : List TimerRec → List TimerRec
  | [] => [t]
  | y :: ys => if timerLtb t y then t :: y :: ys else y :: insertTimer t ys

/-- `TimerManager` state: the ordered timer set, the `m_tickled` flag
and the previously observed clock `m_previouseTime`. -/
structure TMState where
  m_timers : List TimerRec
  m_tickled : Bool
  m_previouseTime : Nat
deriving DecidableEq, Repr

/-- `TimerManager::detectClockRollover(now_ms)` (timer.cpp lines
240-250): rollover iff `now_ms < m_previouseTime` and
`now_ms < m_previouseTime - 60 * 60 * 1000`, the subtraction taken in
`uint64_t` arithmetic; `m_previouseTime` is then set to `now_ms`. -/
def detectClockRollover (st : TMState) (now_ms : Nat) : Bool × TMState :=
  let rollover :=
    decide (now_ms < st.m_previouseTime) &&
    decide (now_ms < u64sub st.m_previouseTime 3600000)
  (rollover, { st with m_previouseTime := now_ms })

/-- `TimerManager::getNextTimer()` (timer.cpp lines 158-173): clears
`m_tickled`, returns `~0ull` on an empty set, `0` when the head timer
has already expired, and the remaining delay otherwise.  `now_ms` is
the value of `sylar::GetCurrentMS()`. -/
def getNextTimer (st : TMState) (now_ms : Nat) : Nat × TMState :=
  let st2 := { st with m_tickled := false }
  match st2.m_timers with
  | [] => (U64MAX, st2)
  | next :: _ =>
    if next.m_next ≤ now_ms then (0, st2)
    else (next.m_next - now_ms, st2)

/-- `TimerManager::addTimer(val, lock)` (timer.cpp lines 226-237):
inserts into the set; if the new timer landed at the front and the
manager is not already tickled, sets `m_tickled` and invokes the
`onTimerInsertedAtFront()` hook after unlocking.  The boolean
result records whether the hook was invoked. -/
def addTimerLocked (st : TMState) (t : TimerRec) : TMState × Bool :=
  let timers2 := insertTimer t st.m_timers
  let at_begin :=
    match st.m_timers with
    | [] => true
    | y :: _ => timerLtb t y
  let at_front := at_begin && !st.m_tickled
  ({ st with m_timers := timers2, m_tickled := st.m_tickled || at_front }, at_front)

/-- `TimerManager::listExpiredCb(cbs)` (timer.cpp lines 176-224):
returns the collected callbacks (in set order) and the new state.
On an empty set it returns before the rollover detection; otherwise
rollover extends the expired range to the whole set, expired timers
are removed, recurring ones reinserted at `now_ms + m_ms` in set
order, and one-shots have their callback cleared and are dropped. -/
def listExpiredCb (st : TMState) (now_ms : Nat) : List (Option Nat) × TMState :=
  match st.m_timers with
  | [] => ([], st)
  | first :: _ =>
    let (rollover, st1) := detectClockRollover st now_ms
    if !rollover && decide (now_ms < first.m_next) then ([], st1)
    else
      let expired :=
        if rollover then st1.m_timers
        else st1.m_timers.takeWhile (fun t => t.m_next ≤ now_ms)
      let rest :=
        if rollover then []
        else st1.m_timers.dropWhile (fun t => t.m_next ≤ now_ms)
      let cbs := expired.map (·.m_cb)
      let timers2 := expired.foldl
        (fun acc t =>
          if t.m_recurring then
            insertTimer { t with m_next := now_ms + t.m_ms } acc
          else acc)
        rest
      (cbs, { st1 with m_timers := timers2 })

/-! ## Concrete scenario states -/

/-- An IOManager state with one fd slot and nothing registered. -/
def iomInit : IOMState :=
  { fdContexts := [FdContext.init], pendingEventCount := 0, queue := [], epollLog := [] }

/-- Descriptor 0 with a READ registration bound to callback token 7 on
scheduler token 0 (the state produced by a successful
`addEvent(0, READ, cb)`). -/
def sRegCb : IOMState :=
  { fdContexts :=
      [{ read := { scheduler := some 0, fiber := none, cb := some 7 },
         write := .resetCtx, fd := 0, events := READ }],
    pendingEventCount := 1, queue := [], epollLog := [] }

/-- Descriptor 0 with a READ registration bound to fiber token 5 on
scheduler token 0 (the state produced by a successful
`addEvent(0, READ)` from a running fiber). -/
def sRegFiber : IOMState :=
  { fdContexts :=
      [{ read := { scheduler := some 0, fiber := some 5, cb := none },
         write := .resetCtx, fd := 0, events := READ }],
    pendingEventCount := 1, queue := [], epollLog := [] }

/-- The decidable form of the spec's per-context invariant: each event
context is cleared iff its bit is absent from the registered mask. -/
def ctxInvariantB (c : FdContext) : Bool :=
  (c.read.cleared == (c.events &&& READ == 0)) &&
  (c.write.cleared == (c.events &&& WRITE == 0))

/-- The state reached from a clean slot by `addEvent(0, READ, cb)`
followed by `cancelEvent(0, READ)`, both `epoll_ctl` calls
succeeding. -/
def addThenCancelState : Option IOMState :=
  (addEvent iomInit 0 READ (some 7) (some 0) 0 true true).map
    (fun r => (cancelEvent r.2 0 READ true).2)

/-! ## Claim theorems -/

/-- Claim C1.  On a registered READ event, `cancelEvent(0, READ)`
returns true and issues the same residual-mask `epoll_ctl` and
pending-count decrement as `delEvent`, but it schedules nothing (the
run queue stays empty, so the bound waiter — callback token 7 — is
dropped) and the registered-events mask still contains READ (the
computed residual mask is never stored).  This contradicts the claim
that the waiter is scheduled and the registration removed as
`delEvent` does. -/
theorem cancelEvent_drops_waiter_and_keeps_mask :
    (cancelEvent sRegCb 0 READ true).1 = true ∧
    (cancelEvent sRegCb 0 READ true).2.queue = [] ∧
    (cancelEvent sRegCb 0 READ true).2.fdEvents 0 = READ ∧
    (cancelEvent sRegCb 0 READ true).2.fdCtxAt 0 READ = EventContext.resetCtx ∧
    (cancelEvent sRegCb 0 READ true).2.pendingEventCount = 0 ∧
    (cancelEvent sRegCb 0 READ true).2.epollLog =
      [{ op := EpollOp.del, fd := 0, mask := EPOLLET }] := by
  decide

/-- Claim C2.  On a descriptor whose only registered event is READ,
`cancelAll(0)` aborts (`none`): it resets the contexts and decrements
the pending count without ever calling `triggerEvent` or clearing
`fd_ctx->events`, so its own trailing
`SYLAR_ASSERT(fd_ctx->events == 0)` fails.  The claim's promised
behaviour (trigger every waiter, mask NONE, return true) does not
occur. -/
theorem cancelAll_trips_its_own_assert :
    cancelAll sRegCb 0 true = none := by
  decide

/-- Claim C3.  The cleared-iff-unregistered invariant is violated by a
two-operation sequence from a clean slot: `addEvent(0, READ, cb)`
followed by `cancelEvent(0, READ)` leaves the READ context cleared
while the READ bit is still set in the registered-events mask. -/
theorem invariant_broken_by_add_then_cancel :
    addThenCancelState.map
        (fun s => (ctxInvariantB ((s.fdContexts.get? 0).getD default),
                   (s.fdCtxAt 0 READ).cleared, s.fdEvents 0 &&& READ))
      = some (false, true, 1) := by
  decide

/-- Claim C4.  Processing an `EPOLLIN` readiness notification for a
READ registration bound to a fiber waiter schedules the fiber once,
but the event slot is not cleared before (or even after) the waiter
is scheduled: `triggerEvent` passes `ctx.fiber` to `schedule` by
value, so the slot retains the fiber token and only the scheduler
field is nulled.  (The source line additionally names the libc
function `read` instead of the `READ` constant.) -/
theorem idle_read_trigger_leaves_fiber_in_slot :
    (idleProcessEvent sRegFiber 0 EPOLLIN true).map
        (fun s => (s.queue, s.fdCtxAt 0 READ, (s.fdCtxAt 0 READ).cleared,
                   s.fdEvents 0, s.pendingEventCount))
      = some ([{ fiber := some 5, cb := none, thread := -1 }],
              { scheduler := none, fiber := some 5, cb := none },
              false, NONE, 0) := by
  decide

/-- Claim C5.  `Fiber::GetThis()` never writes `t_threadFiber` (the
source statement `t_threadFiber == main_fiber;` is a comparison whose
result is discarded), and in particular the first call in a fresh
thread installs the raw current pointer but leaves the thread-local
main-fiber handle empty. -/
theorem getThis_never_caches_main_fiber :
    (∀ (tls : ThreadTLS) (mainTok : Nat),
      (fiberGetThis tls mainTok).2.t_threadFiber = tls.t_threadFiber) ∧
    fiberGetThis { t_fiber := none, t_threadFiber := none } 1 =
      (1, { t_fiber := some 1, t_threadFiber := none }) := by
  constructor
  · intro tls mainTok
    cases h : tls.t_fiber <;> simp [fiberGetThis, h]
  · rfl

/-- The id and globals after constructing fiber A from fresh counters. -/
def fibA : Nat × FiberGlobals := fiberCtor { s_fiber_id := 0, s_fiber_count := 0 }

/-- The id and globals after then constructing fiber B. -/
def fibB : Nat × FiberGlobals := fiberCtor fibA.2

/-- The id and globals after then destroying A and B and constructing
fiber C. -/
def fibC : Nat × FiberGlobals := fiberCtor (fiberDtor (fiberDtor fibB.2))

/-- Claim C6.  Fiber ids are not monotone and are reused: ids are drawn
from `s_fiber_count`, which the destructor decrements (the dedicated
`s_fiber_id` counter is never used).  In the construction order
A, B, ~A, ~B, C, fiber B receives id 3 and the later-constructed
fiber C receives the same id 3 — not a strictly greater, fresh id. -/
theorem fiber_id_reused_after_destruction :
    fibB.1 = 3 ∧ fibC.1 = 3 ∧ ¬ fibB.1 < fibC.1 := by
  decide

/-- A slot past the original vector length is indistinguishable from a
default context after `contextResize`: either it was filled with a
fresh `FdContext` or it is still absent. -/
lemma contextResize_getD_of_le (l : List FdContext) (n fd : Nat) (h : l.length ≤ fd) :
    ((contextResize l n)[fd]?).getD default = default := by
  unfold contextResize
  split
  · rw [List.getElem?_eq_none]
    · rfl
    · calc (l.take n).length ≤ l.length := by
            simp [List.length_take]
        _ ≤ fd := h
  · rw [List.getElem?_append_right h, List.getElem?_replicate]
    split <;> rfl

/-- Under the index used by `addEvent`, the possibly grown vector holds
the same observable slot as the original one: in range it is the same
element, out of range both sides read as a default context. -/
lemma addEventContexts_getD_eq (s : IOMState) (fd : Nat) :
    ((addEventContexts s fd)[fd]?).getD default =
      (s.fdContexts[fd]?).getD default := by
  unfold addEventContexts
  split
  · rfl
  · rename_i hlt
    have hlen := Nat.le_of_not_lt hlt
    rw [contextResize_getD_of_le _ _ _ hlen, List.getElem?_eq_none hlen]
    rfl

/-- Claim C7.  If the `epoll_ctl` call inside `addEvent` fails, the
function returns `-1` and neither the pending event count, nor the
fd's registered-events mask, nor either of the fd's event contexts is
changed (an out-of-range fd is compared against the default slot a
grown vector would hold). -/
theorem addEvent_epoll_failure_frame
    (s : IOMState) (fd event : Nat) (cb sched : Option Nat) (curFiber : Nat)
    (curFiberExec : Bool) (r : Int) (s' : IOMState)
    (h : addEvent s fd event cb sched curFiber curFiberExec false = some (r, s')) :
    r = -1 ∧ s'.pendingEventCount = s.pendingEventCount ∧
    s'.fdEvents fd = s.fdEvents fd ∧
    s'.fdCtxAt fd READ = s.fdCtxAt fd READ ∧
    s'.fdCtxAt fd WRITE = s.fdCtxAt fd WRITE := by
  simp only [addEvent] at h
  split at h
  · exact Option.noConfusion h
  · split at h
    · exact Option.noConfusion h
    · rw [if_pos Bool.false_ne_true] at h
      have h2 := Option.some.inj h
      have hr := congrArg Prod.fst h2
      have hs := congrArg Prod.snd h2
      dsimp only at hr hs
      subst hs
      refine ⟨hr.symm, rfl, ?_, ?_, ?_⟩ <;>
        simp [IOMState.fdEvents, IOMState.fdCtxAt, addEventContexts_getD_eq]

/-- The state produced by the C7 witness call: the epoll request is
logged and nothing else changes. -/
def c7FailState : IOMState :=
  { fdContexts := [FdContext.init], pendingEventCount := 0, queue := [],
    epollLog := [{ op := EpollOp.add, fd := 0, mask := EPOLLET ||| NONE ||| READ }] }

/-- Witness for claim C7: the frame theorem applied to a concrete
failing `addEvent(0, READ, cb)` call on a clean slot. -/
theorem addEvent_epoll_failure_frame_witness :
    (-1 : Int) = -1 ∧
    c7FailState.pendingEventCount = iomInit.pendingEventCount ∧
    c7FailState.fdEvents 0 = iomInit.fdEvents 0 ∧
    c7FailState.fdCtxAt 0 READ = iomInit.fdCtxAt 0 READ ∧
    c7FailState.fdCtxAt 0 WRITE = iomInit.fdCtxAt 0 WRITE :=
  addEvent_epoll_failure_frame iomInit 0 READ (some 7) (some 0) 0 true (-1)
    c7FailState (by decide)

/-- When no wraparound occurs, the `uint64_t` subtraction agrees with
the natural-number one. -/
lemma u64sub_eq_sub (a b : Nat) (hb : b ≤ a) (ha : a < U64MOD) :
    u64sub a b = a - b := by
  unfold u64sub
  have hblt : b < U64MOD := lt_of_le_of_lt hb ha
  rw [Nat.mod_eq_of_lt ha, Nat.mod_eq_of_lt hblt]
  have h1 : a + (U64MOD - b) = U64MOD + (a - b) := by omega
  rw [h1, Nat.add_mod_left, Nat.mod_eq_of_lt (by omega)]

/-- A timer manager whose previous clock observation is below one hour
(uptime shorter than 3600000 ms), with one far-future timer. -/
def stC8 : TMState :=
  { m_timers := [{ m_recurring := false, m_ms := 0, m_next := 1000000000,
                   m_cb := some 1, oid := 0 }],
    m_tickled := false, m_previouseTime := 1000 }

/-- Claim C8, counterexample.  A backward clock jump of 500 ms — far
below one hour — still triggers full-set expiry when the previously
observed clock value is 1000 ms: the `uint64_t` expression
`m_previouseTime - 3600000` wraps around, the rollover test passes,
and the lone timer, although its expiry 1000000000 lies far beyond
`now = 500`, is collected and removed from the set. -/
theorem backward_jump_small_prev_full_expiry :
    stC8.m_previouseTime - 500 ≤ 3600000 ∧
    stC8.m_timers.map (·.m_next) = [1000000000] ∧
    (500 : Nat) < 1000000000 ∧
    listExpiredCb stC8 500 =
      ([some 1], { m_timers := [], m_tickled := false, m_previouseTime := 500 }) := by
  decide

/-- Claim C8 as amended.  A backward jump of strictly more than
3600000 ms makes `listExpiredCb` collect every timer in the set; and
provided the previously observed clock value is at least 3600000 ms
(so the unsigned subtraction in `detectClockRollover` cannot wrap), a
backward jump of at most one hour leaves only the genuinely expired
timers (expiry at most `now`) to be collected. -/
theorem listExpiredCb_rollover_amended (st : TMState) (now : Nat)
    (hprev : st.m_previouseTime < U64MOD) :
    (now + 3600000 < st.m_previouseTime →
      (listExpiredCb st now).1 = st.m_timers.map (·.m_cb)) ∧
    (3600000 ≤ st.m_previouseTime → st.m_previouseTime ≤ now + 3600000 →
      (listExpiredCb st now).1 =
        (st.m_timers.takeWhile (fun t => t.m_next ≤ now)).map (·.m_cb)) := by
  constructor
  · intro hjump
    have hb : 3600000 ≤ st.m_previouseTime := by omega
    have hsub : u64sub st.m_previouseTime 3600000 = st.m_previouseTime - 3600000 :=
      u64sub_eq_sub _ _ hb hprev
    have h1 : now < st.m_previouseTime := by omega
    have h2 : now < u64sub st.m_previouseTime 3600000 := by rw [hsub]; omega
    cases htimers : st.m_timers with
    | nil => simp [listExpiredCb, htimers]
    | cons first rest =>
      simp [listExpiredCb, htimers, detectClockRollover, h1, h2]
  · intro h36 hle
    have hsub : u64sub st.m_previouseTime 3600000 = st.m_previouseTime - 3600000 :=
      u64sub_eq_sub _ _ h36 hprev
    have h2 : ¬ now < u64sub st.m_previouseTime 3600000 := by rw [hsub]; omega
    cases htimers : st.m_timers with
    | nil => simp [listExpiredCb, htimers]
    | cons first rest =>
      by_cases hfirst : now < first.m_next
      · simp [listExpiredCb, htimers, detectClockRollover, h2, hfirst,
          List.takeWhile_cons, Nat.not_le_of_lt hfirst]
      · simp [listExpiredCb, htimers, detectClockRollover, h2, hfirst]

/-- A timer manager late in its clock's life with a single pending
timer, used as the witness input for the amended rollover claim. -/
def stC8W : TMState :=
  { m_timers := [{ m_recurring := false, m_ms := 0, m_next := 999999,
                   m_cb := some 2, oid := 0 }],
    m_tickled := false, m_previouseTime := 5000000 }

/-- Witness for the amended claim C8: a concrete backward jump of
4000000 ms (more than one hour) collects every timer. -/
theorem listExpiredCb_rollover_amended_witness :
    stC8W.m_previouseTime < U64MOD ∧
    1000000 + 3600000 < stC8W.m_previouseTime ∧
    (listExpiredCb stC8W 1000000).1 = stC8W.m_timers.map (·.m_cb) :=
  ⟨by decide, by decide,
    (listExpiredCb_rollover_amended stC8W 1000000 (by decide)).1 (by decide)⟩

/-- Claim C9.  For every entry that actually carries a fiber or a
callback, and any thread affinity, `schedule` appends the entry to
the run queue (it is always accepted, nothing is returned), and
`tickle()` is invoked after unlocking exactly when the queue was
empty immediately before the insertion. -/
theorem schedule_appends_and_tickles_iff_was_empty
    (q : List FiberAndThread) (fc : FiberOrCb) (thread : Int)
    (hvalid : ((mkFiberAndThread fc thread).fiber.isSome ||
               (mkFiberAndThread fc thread).cb.isSome) = true) :
    (Scheduler.schedule q fc thread).1 = q ++ [mkFiberAndThread fc thread] ∧
    ((Scheduler.schedule q fc thread).2 = true ↔ q = []) := by
  unfold Scheduler.schedule scheduleNoLock
  refine ⟨?_, ?_⟩
  · simp [hvalid]
  · simp [List.isEmpty_iff]

/-- Witness for claim C9: scheduling callback token 3 with any-thread
affinity on an empty queue appends it and tickles. -/
theorem schedule_appends_and_tickles_iff_was_empty_witness :
    (Scheduler.schedule [] (FiberOrCb.cbV (some 3)) (-1)).1 =
      [] ++ [mkFiberAndThread (FiberOrCb.cbV (some 3)) (-1)] ∧
    ((Scheduler.schedule [] (FiberOrCb.cbV (some 3)) (-1)).2 = true ↔
      ([] : List FiberAndThread) = []) :=
  schedule_appends_and_tickles_iff_was_empty [] (FiberOrCb.cbV (some 3)) (-1)
    (by decide)

/-- Whether a timer would be inserted at the very front of the ordered
set (it is strictly smaller than the current head, or the set is
empty). -/
def landsAtFront (t : TimerRec) : List TimerRec → Bool
  | [] => true
  | y :: _ => timerLtb t y

/-- Claim C10.  Every `getNextTimer` call clears `m_tickled` — also on
an empty set — and leaves the timer set unchanged; consequently an
`addTimer` immediately afterwards whose timer lands at the front of
the set invokes the `onTimerInsertedAtFront` hook. -/
theorem getNextTimer_clears_tickled_preserves_timers
    (st : TMState) (now : Nat) (t : TimerRec) :
    (getNextTimer st now).2.m_tickled = false ∧
    (getNextTimer st now).2.m_timers = st.m_timers ∧
    (landsAtFront t st.m_timers = true →
      (addTimerLocked (getNextTimer st now).2 t).2 = true) := by
  have hsnd : (getNextTimer st now).2 = { st with m_tickled := false } := by
    unfold getNextTimer
    cases st.m_timers with
    | nil => rfl
    | cons next rest => dsimp only; split <;> rfl
  refine ⟨by rw [hsnd], by rw [hsnd], ?_⟩
  intro hfront
  rw [hsnd]
  unfold addTimerLocked
  cases htimers : st.m_timers with
  | nil => rfl
  | cons y ys =>
    have : timerLtb t y = true := by
      simpa [landsAtFront, htimers] using hfront
    simp [this]

/-- A timer due at 400 ms (identity 1) held by a tickled manager, used
as the witness input for claim C10. -/
def stC10 : TMState :=
  { m_timers := [{ m_recurring := false, m_ms := 400, m_next := 400,
                   m_cb := some 4, oid := 1 }],
    m_tickled := true, m_previouseTime := 0 }

/-- A timer due at 100 ms (identity 2) that lands at the front of
`stC10`'s set. -/
def tC10 : TimerRec :=
  { m_recurring := false, m_ms := 100, m_next := 100, m_cb := some 5, oid := 2 }

/-- Witness for claim C10: after `getNextTimer` on a tickled manager,
inserting an earlier timer invokes the hook again. -/
theorem getNextTimer_clears_tickled_preserves_timers_witness :
    (getNextTimer stC10 0).2.m_tickled = false ∧
    (getNextTimer stC10 0).2.m_timers = stC10.m_timers ∧
    (addTimerLocked (getNextTimer stC10 0).2 tC10).2 = true :=
  ⟨(getNextTimer_clears_tickled_preserves_timers stC10 0 tC10).1,
   (getNextTimer_clears_tickled_preserves_timers stC10 0 tC10).2.1,
   (getNextTimer_clears_tickled_preserves_timers stC10 0 tC10).2.2 (by decide)⟩

end Sylar
